import Mathlib

/-!
Verification of the ProcPilot agent (src/agent) against its specification.

The development shallowly embeds the two Python modules the claims are about:

* `hosting.py` — the framed wire protocol (`Packet`), the per-connection
  receive buffer (`Connection`) and the supervisor `tick` loop over
  connections.  Byte strings are modelled as `List Nat` (one entry per byte,
  values below 256); Python `str` values are Lean `String`s (both are
  sequences of Unicode scalar values).  Python exceptions are modelled with
  `Except PyError`.
* `serviceManager.py` — the log-session tracker (`Log`) and the cached
  liveness check of `Service`.  File contents are `List Char`, wall-clock
  times are rationals.

Python library primitives the code relies on (`str.encode("utf-8")`,
`bytes.decode("utf-8")`, `bytes.rstrip`, `bytes.ljust`) are given executable
Lean counterparts below.  `json.loads` is kept abstract: every theorem is
parameterised by a predicate `jsonLoadsOk : String → Bool` that says on which
texts `json.loads` succeeds, which is all the claims depend on.
-/

/-- Python `str.encode("utf-8")` restricted to a single code point: the
standard UTF-8 encoding of the scalar value of `c` (1 to 4 bytes).  Division
and remainder by powers of two express the bit-shifting byte extraction. -/
def utf8EncodeChar (c : Char) : List Nat :=
  if c.toNat < 0x80 then [c.toNat]
  else if c.toNat < 0x800 then [0xC0 + c.toNat / 64, 0x80 + c.toNat % 64]
  else if c.toNat < 0x10000 then
    [0xE0 + c.toNat / 4096, 0x80 + c.toNat / 64 % 64, 0x80 + c.toNat % 64]
  else
    [0xF0 + c.toNat / 262144, 0x80 + c.toNat / 4096 % 64,
      0x80 + c.toNat / 64 % 64, 0x80 + c.toNat % 64]

/-- Python `s.encode("utf-8")`: concatenation of the per-character UTF-8
encodings. -/
def utf8Encode (s : String) : List Nat :=
  s.data.flatMap utf8EncodeChar

/-- A UTF-8 continuation byte: high bits `10`. -/
def contByte (b : Nat) : Prop := 0x80 ≤ b ∧ b < 0xC0

instance (b : Nat) : Decidable (contByte b) :=
  inferInstanceAs (Decidable (_ ∧ _))

/-- Code point assembled from a 2-byte UTF-8 sequence. -/
def cp2 (b b1 : Nat) : Nat := (b - 0xC0) * 64 + (b1 - 0x80)

/-- Code point assembled from a 3-byte UTF-8 sequence. -/
def cp3 (b b1 b2 : Nat) : Nat := (b - 0xE0) * 4096 + (b1 - 0x80) * 64 + (b2 - 0x80)

/-- Code point assembled from a 4-byte UTF-8 sequence. -/
def cp4 (b b1 b2 b3 : Nat) : Nat :=
  (b - 0xF0) * 262144 + (b1 - 0x80) * 4096 + (b2 - 0x80) * 64 + (b3 - 0x80)

/-- A code point a strict decoder rejects for a 3-byte sequence: overlong
(below U+0800) or a surrogate. -/
def bad3 (n : Nat) : Prop := n < 0x800 ∨ (0xD800 ≤ n ∧ n < 0xE000)

instance (n : Nat) : Decidable (bad3 n) :=
  inferInstanceAs (Decidable (_ ∨ _))

/-- A code point a strict decoder rejects for a 4-byte sequence: overlong
(below U+10000) or beyond U+10FFFF. -/
def bad4 (n : Nat) : Prop := n < 0x10000 ∨ 0x110000 ≤ n

instance (n : Nat) : Decidable (bad4 n) :=
  inferInstanceAs (Decidable (_ ∨ _))

/-- Finish decoding a 2-byte UTF-8 sequence with lead byte `b`: check the
continuation byte at the front of `rest` and prepend the decoded character
to the decoded remainder `tail`. -/
def dec2 (b : Nat) (rest : List Nat) (tail : Option (List Char)) : Option (List Char) :=
  match rest with
  | b1 :: _ => if contByte b1 then tail.map (fun cs => Char.ofNat (cp2 b b1) :: cs) else none
  | [] => none

/-- Finish decoding a 3-byte UTF-8 sequence with lead byte `b` (rejecting
overlong encodings and surrogates, as a strict decoder does). -/
def dec3 (b : Nat) (rest : List Nat) (tail : Option (List Char)) : Option (List Char) :=
  match rest with
  | b1 :: b2 :: _ =>
    if contByte b1 ∧ contByte b2 then
      if bad3 (cp3 b b1 b2) then none
      else tail.map (fun cs => Char.ofNat (cp3 b b1 b2) :: cs)
    else none
  | _ => none

/-- Finish decoding a 4-byte UTF-8 sequence with lead byte `b` (rejecting
overlong encodings and code points beyond U+10FFFF). -/
def dec4 (b : Nat) (rest : List Nat) (tail : Option (List Char)) : Option (List Char) :=
  match rest with
  | b1 :: b2 :: b3 :: _ =>
    if contByte b1 ∧ contByte b2 ∧ contByte b3 then
      if bad4 (cp4 b b1 b2 b3) then none
      else tail.map (fun cs => Char.ofNat (cp4 b b1 b2 b3) :: cs)
    else none
  | _ => none

/-- The decoding loop, structurally recursive on a fuel argument so that it
evaluates by kernel reduction.  One unit of fuel is spent per decoded
character and each character consumes at least one byte, so fuel equal to
the byte count (as supplied by `utf8Decode`) never runs out; the
`0, _ :: _` arm is unreachable from `utf8Decode`.  The number of
continuation bytes is dictated by the lead byte; lead bytes `0x80`-`0xC1`
(stray continuation or overlong 2-byte lead) and `0xF5`-`0xFF` are
invalid. -/
def utf8DecodeLoop : Nat → List Nat → Option (List Char)
  | _, [] => some []
  | 0, _ :: _ => none
  | fuel + 1, b :: rest =>
    if b < 0x80 then
      (utf8DecodeLoop fuel rest).map (fun cs => Char.ofNat b :: cs)
    else if b < 0xC2 then none
    else if b < 0xE0 then dec2 b rest (utf8DecodeLoop fuel (rest.drop 1))
    else if b < 0xF0 then dec3 b rest (utf8DecodeLoop fuel (rest.drop 2))
    else if b < 0xF5 then dec4 b rest (utf8DecodeLoop fuel (rest.drop 3))
    else none

/-- Python `bs.decode("utf-8")` (strict mode), as used by
`Packet.from_buffer` and the packet constructor: decodes a byte sequence to
the list of code points, failing (`none`, i.e. `UnicodeDecodeError`) on any
invalid lead or continuation byte, on overlong encodings, on surrogates and
on values above U+10FFFF. -/
def utf8Decode (bs : List Nat) : Option (List Char) :=
  utf8DecodeLoop bs.length bs

/-- Python `bs.rstrip` with a single zero byte: drop all trailing zero
bytes. -/
def rstrip0 (bs : List Nat) : List Nat :=
  (bs.reverse.dropWhile (fun b => b == 0)).reverse

/-- Python `bs.ljust(w, zero byte)`: right-pad with zero bytes up to width
`w` (no change when `bs` is already at least `w` long, by truncated
subtraction). -/
def ljust0 (bs : List Nat) (w : Nat) : List Nat :=
  bs ++ List.replicate (w - bs.length) 0

/-! ## The wire protocol: `Packet` (src/agent/hosting.py)

Frame layout (hosting.py line 21): TYPE (1 byte), SUBTYPE (8 bytes, zero
padded), LENGTH (4 bytes big-endian), DATA (LENGTH bytes). -/

/-- The Python exceptions the embedded code can raise.  `valueError` carries
the message; `typeError` stands for subscripting `None`, `keyError` for a
missing dictionary key. -/
inductive PyError
  | valueError (msg : String)
  | unicodeDecodeError
  | typeError
  | keyError
deriving DecidableEq

/-- A decoded packet (class `Packet`, hosting.py lines 22-43).  `json`
models the `self.json` attribute: the UTF-8 decoded payload text that
`json.loads` was applied to for JSON-typed packets, `None` otherwise (the
parsed JSON value itself is abstracted to the text it was parsed from). -/
structure Packet where
  type : Nat
  sub_type : String
  bytes : List Nat
  full_size : Nat
  json : Option String
deriving DecidableEq

/-- `Packet.Type.RAW` (hosting.py line 24). -/
def Packet.Type.RAW : Nat := 1

/-- `Packet.Type.JSON` (hosting.py line 25). -/
def Packet.Type.JSON : Nat := 2

/-- `Packet.MAX_SUBTYPE_LEN` (hosting.py line 27). -/
def Packet.MAX_SUBTYPE_LEN : Nat := 8

/-- `Packet.MAX_PACKET_SIZE` (hosting.py line 28, commented "1MB limit"). -/
def Packet.MAX_PACKET_SIZE : Nat := 1024 * 1024

/-- `Packet.__init__` (hosting.py lines 30-43).  Rejects a subtype whose
CHARACTER count (Python `len` of a `str`) exceeds 8; stores the payload and
the derived `full_size = 13 + len(raw_bytes)`; for JSON-typed packets
decodes the payload as UTF-8 (an invalid payload raises
`UnicodeDecodeError`, uncaught by the `except json.JSONDecodeError` clause)
and applies `json.loads` (failure raises `ValueError`). -/
def Packet.init (jsonLoadsOk : String → Bool) (packet_type : Nat) (packet_sub_type : String)
    (raw_bytes : List Nat) : Except PyError Packet :=
  if packet_sub_type.length > Packet.MAX_SUBTYPE_LEN then
    .error (.valueError "Sub-type too long (max 8 characters)")
  else if packet_type = Packet.Type.JSON then
    match utf8Decode raw_bytes with
    | none => .error .unicodeDecodeError
    | some cs =>
      if jsonLoadsOk (String.mk cs) then
        .ok ⟨packet_type, packet_sub_type, raw_bytes, 13 + raw_bytes.length, some (String.mk cs)⟩
      else .error (.valueError "Invalid JSON payload")
  else .ok ⟨packet_type, packet_sub_type, raw_bytes, 13 + raw_bytes.length, none⟩

/-- `Packet.get_length` (hosting.py lines 46-49): big-endian 32-bit read of
the first four bytes, or `-1` when fewer than four bytes are supplied.
Multiplication by powers of two expresses `<<` and `|` on disjoint byte
ranges. -/
def Packet.get_length (length_bytes : List Nat) : Int :=
  if length_bytes.length < 4 then -1
  else ((length_bytes.getD 0 0) * 2 ^ 24 + (length_bytes.getD 1 0) * 2 ^ 16 +
    (length_bytes.getD 2 0) * 2 ^ 8 + length_bytes.getD 3 0 : Nat)

/-- `Packet.to_length` (hosting.py lines 50-58): big-endian 32-bit encoding
of a length; `/` and `% 256` express `>>` and `& 0xFF`. -/
def Packet.to_length (length : Nat) : List Nat :=
  [length / 2 ^ 24 % 256, length / 2 ^ 16 % 256, length / 2 ^ 8 % 256, length % 256]

/-- `Packet.check_complete` (hosting.py lines 59-63): the buffer holds at
least the 13-byte header and the declared payload. -/
def Packet.check_complete (buffer : List Nat) : Bool :=
  if buffer.length < 13 then false
  else decide ((13 : Int) + Packet.get_length ((buffer.drop 9).take 4) ≤ (buffer.length : Int))

/-- `Packet.from_buffer` (hosting.py lines 64-72): requires a complete
frame, reads the type byte, strips the zero padding off the subtype field
and decodes it as UTF-8, slices out the declared payload and re-runs the
constructor. -/
def Packet.from_buffer (jsonLoadsOk : String → Bool) (buffer : List Nat) :
    Except PyError Packet :=
  if ¬ Packet.check_complete buffer then
    .error (.valueError "Buffer does not contain a complete packet")
  else
    match utf8Decode (rstrip0 ((buffer.drop 1).take 8)) with
    | none => .error (.valueError "Invalid sub-type encoding")
    | some cs =>
      Packet.init jsonLoadsOk (buffer.getD 0 0) (String.mk cs)
        ((buffer.drop 13).take (Packet.get_length ((buffer.drop 9).take 4)).toNat)

/-- `Packet.to_bytes` (hosting.py lines 92-103): type byte, UTF-8 encoded
subtype truncated to its first 8 bytes and zero-padded to 8, big-endian
length, payload. -/
def Packet.to_bytes (p : Packet) : List Nat :=
  [p.type] ++ ljust0 ((utf8Encode p.sub_type).take 8) 8 ++
    Packet.to_length p.bytes.length ++ p.bytes

/-! ## Connections and the supervisor tick loop (src/agent/hosting.py)

Socket effects are inputs of the model: what `socket.recv` returns on a
given tick is a `RecvEvent`, and wall-clock time is passed in as `now`. -/

/-- `DEFAULT_CLIENT_TIMEOUT` (hosting.py line 12). -/
def DEFAULT_CLIENT_TIMEOUT : ℚ := 10

/-- A client connection (class `Connection`, hosting.py lines 105-112): the
accumulated receive buffer, the last-activity timestamp and the closed
flag.  The socket handle and peer address play no role in the embedded
behaviour. -/
structure Connection where
  buffer : List Nat
  last_active : ℚ
  closed : Bool
deriving DecidableEq

/-- What the non-blocking `socket.recv(4096)` call produced this tick:
no data available (`BlockingIOError`), returned bytes (the empty byte
string signalling orderly end of stream), or some other read error. -/
inductive RecvEvent
  | noData
  | bytes (data : List Nat)
  | recvError
deriving DecidableEq

/-- `Connection.close` (hosting.py lines 114-116): mark the connection
closed (closing the socket handle is an external effect). -/
def Connection.close (c : Connection) : Connection :=
  { c with closed := true }

/-- `Connection.fill_buffer` (hosting.py lines 119-130): append received
bytes and refresh the activity timestamp; close on an empty read (EOF) or a
read error; do nothing when no data is available. -/
def Connection.fill_buffer (c : Connection) (now : ℚ) (ev : RecvEvent) : Connection :=
  match ev with
  | .noData => c
  | .recvError => c.close
  | .bytes data =>
    if data.isEmpty then c.close
    else { c with buffer := c.buffer ++ data, last_active := now }

/-- `Connection.get_next_packet` (hosting.py lines 138-142): nothing when no
complete frame is buffered; otherwise decode the frame at the front and
splice `full_size` bytes off the buffer.  A decode error propagates (there
is no handler in the source). -/
def Connection.get_next_packet (jsonLoadsOk : String → Bool) (c : Connection) :
    Except PyError (Option Packet × Connection) :=
  if ¬ Packet.check_complete c.buffer then .ok (none, c)
  else
    match Packet.from_buffer jsonLoadsOk c.buffer with
    | .error e => .error e
    | .ok p => .ok (some p, { c with buffer := c.buffer.drop p.full_size })

/-- `Connection.check_timeout` (hosting.py lines 144-149): close and report
failure when idle longer than the timeout. -/
def Connection.check_timeout (c : Connection) (now timeout : ℚ) : Bool × Connection :=
  if now - c.last_active > timeout then (false, c.close) else (true, c)

/-- The three handler branches at the bottom of `tick` (hosting.py lines
206-213) applied to one decoded packet.  `CLOSE` closes the connection;
`PRINT` prints the UTF-8 decoded payload (the decode can raise, uncaught);
`PRINT_J` prints `packet.json["message"]` — `jsonMessage` abstracts that
subscript on the parsed JSON of the payload text, and subscripting the
`None` stored for non-JSON packets raises `TypeError`.  Returns the
connection and the printed lines. -/
def dispatch_packet (jsonMessage : String → Except PyError String) (p : Packet)
    (c : Connection) : Except PyError (Connection × List String) := do
  let c1 := if p.sub_type = "CLOSE" then c.close else c
  let out1 ←
    if p.sub_type = "PRINT" then
      match utf8Decode p.bytes with
      | none => Except.error PyError.unicodeDecodeError
      | some cs => Except.ok [String.mk cs]
    else Except.ok []
  let out2 ←
    if p.sub_type = "PRINT_J" then
      match p.json with
      | none => Except.error PyError.typeError
      | some s => (jsonMessage s).map (fun m => [m])
    else Except.ok []
  Except.ok (c1, out1 ++ out2)

/-- The body of the per-connection loop of `tick` (hosting.py lines
198-213): timeout check (a timed-out connection is skipped with
`continue`), one read, ONE `get_next_packet` call, then the handlers.
Returns the connection, the packets dispatched for it this tick and the
printed lines; an exception aborts everything. -/
def process_connection (jsonLoadsOk : String → Bool)
    (jsonMessage : String → Except PyError String) (now : ℚ) (c : Connection)
    (ev : RecvEvent) : Except PyError (Connection × List Packet × List String) :=
  match c.check_timeout now DEFAULT_CLIENT_TIMEOUT with
  | (false, c1) => .ok (c1, [], [])
  | (true, c1) =>
    let c2 := c1.fill_buffer now ev
    match c2.get_next_packet jsonLoadsOk with
    | .error e => .error e
    | .ok (none, c3) => .ok (c3, [], [])
    | .ok (some p, c3) =>
      match dispatch_packet jsonMessage p c3 with
      | .error e => .error e
      | .ok (c4, outs) => .ok (c4, [p], outs)

/-- Iterate `process_connection` over the live connections in order,
collecting updated connections, dispatched packets and printed lines.  An
exception raised for one connection aborts the remaining ones, as in the
source, where nothing catches it. -/
def tick_loop (jsonLoadsOk : String → Bool)
    (jsonMessage : String → Except PyError String) (now : ℚ) :
    List (Connection × RecvEvent) →
      Except PyError (List Connection × List Packet × List String)
  | [] => .ok ([], [], [])
  | (c, ev) :: rest => do
    let (c1, ps, outs) ← process_connection jsonLoadsOk jsonMessage now c ev
    let (cs, ps2, outs2) ← tick_loop jsonLoadsOk jsonMessage now rest
    Except.ok (c1 :: cs, ps ++ ps2, outs ++ outs2)

/-- The per-connection part of `tick` (hosting.py lines 195-213): first the
connections already marked closed are dropped (line 196), then each
remaining connection is processed in order.  The accept step (lines
185-193) only appends a fresh connection and is orthogonal to the claims
about frame processing. -/
def tick_connections (jsonLoadsOk : String → Bool)
    (jsonMessage : String → Except PyError String) (now : ℚ)
    (conns : List (Connection × RecvEvent)) :
    Except PyError (List Connection × List Packet × List String) :=
  tick_loop jsonLoadsOk jsonMessage now (conns.filter (fun ce => ! ce.1.closed))

/-! ## The log-session tracker (src/agent/serviceManager.py, class `Log`)

The log file is text: its content is a `List Char` and positions count
characters, matching `f.tell()` on the files the tracker writes.  A line, as
returned by `f.readline()`, is represented by the outcome of the marker
classification `Log.Marker.from_line` performs on its text: `plain` covers
every line the regex or the timestamp parse rejects (ordinary process
output, malformed markers), `marker` carries the name, tags and parsed
timestamp of a line matching the marker grammar
`--- [PROCPILOT] <name> [<tags>] (<YYYY-MM-DD HH:MM:SS>) ---`.  `len` is the
length of the string `readline` returned, including the terminating newline
when the line has one. -/

/-- One line of log text as classified by the marker regex and timestamp

parse of `Log.Marker.from_line` (serviceManager.py lines 38-53). -/
inductive LogLine
  | plain (len : Nat)
  | marker (name : String) (tags : List String) (timestamp : Int) (len : Nat)

/-- The length of the string `readline` returned for this line. -/
def LogLine.len : LogLine → Nat
  | .plain n => n
  | .marker _ _ _ n => n

/-- A parsed marker (class `Log.Marker`, serviceManager.py lines 18-24). -/
structure Log.Marker where
  name : String
  tags : List String
  timestamp : Int
  pos : Nat
  line_num : Nat
deriving DecidableEq

/-- `Log.Marker.from_line` (serviceManager.py lines 37-53): `None` for a
line that fails the prefix check, the regex or the timestamp parse;
otherwise a marker with the parsed fields and `pos = line_num = 0`. -/
def Log.Marker.from_line : LogLine → Option Log.Marker
  | .plain _ => none
  | .marker name tags timestamp _ => some ⟨name, tags, timestamp, 0, 0⟩

/-- A reconstructed session (class `Log.SessionInfo`, serviceManager.py
lines 55-61); all fields start out `None`/empty. -/
structure Log.SessionInfo where
  start_pos : Option Nat
  end_pos : Option Nat
  markers : List Log.Marker
  start_time : Option Int
  end_time : Option Int
deriving DecidableEq

/-- The mutable state of a `Log` tracker (serviceManager.py lines 63-73).
`file_path` is omitted (the file content is passed to the operations);
`last_pos` is initialised and never read in the source. -/
structure Log.State where
  last_pos : Nat
  max_read_size : Nat
  old_sessions : List Log.SessionInfo
  current_session : Option Log.SessionInfo
  current_pos : Nat
  current_line : Nat
  current_line_start : Nat
deriving DecidableEq

/-- `MAX_LOG_READ_SIZE` (serviceManager.py line 13). -/
def MAX_LOG_READ_SIZE : Nat := 1024 * 992

/-- A freshly constructed tracker (`Log.__init__`, serviceManager.py lines
63-73) with the default maximum read size. -/
def Log.State.init : Log.State :=
  ⟨0, MAX_LOG_READ_SIZE, [], none, 0, 0, 0⟩

/-- `Log.__end_session` (serviceManager.py lines 75-81): when a session is
open, record its end position and time, append it to the history and clear
the current session; otherwise do nothing. -/
def Log.end_session (st : Log.State) (end_pos : Nat) (end_time : Option Int) : Log.State :=
  match st.current_session with
  | none => st
  | some cs =>
    { st with
      old_sessions := st.old_sessions ++
        [{ cs with end_pos := some end_pos, end_time := end_time }],
      current_session := none }

/-- `Log.__handle_line` (serviceManager.py lines 83-104).  A non-marker line
is ignored.  A `START` marker closes any open session at the marker and
opens a new one whose marker list holds the marker; control then falls
through to the generic branches, so the same marker is appended a second
time.  `SHUTDOWN`/`STOP`/`ERROR` append the marker and close the session;
any other marker is appended; every marker is dropped when no session is
open. -/
def Log.handle_line (st : Log.State) (line : LogLine) : Log.State :=
  match Log.Marker.from_line line with
  | none => st
  | some m0 =>
    let m := { m0 with pos := st.current_line_start, line_num := st.current_line }
    let st1 :=
      if m.name = "START" then
        let st2 := Log.end_session st m.pos (some m.timestamp)
        { st2 with
          current_session := some
            { start_pos := some m.pos, end_pos := none, markers := [m],
              start_time := some m.timestamp, end_time := none } }
      else st
    match st1.current_session with
    | none => st1
    | some cs =>
      if m.name = "SHUTDOWN" ∨ m.name = "STOP" ∨ m.name = "ERROR" then
        Log.end_session
          { st1 with current_session := some { cs with markers := cs.markers ++ [m] } }
          m.pos (some m.timestamp)
      else
        { st1 with current_session := some { cs with markers := cs.markers ++ [m] } }

/-- One iteration of the `while` loop of `Log.handle_new_lines`
(serviceManager.py lines 110-117): note the line start, advance the line
counter and the cursor past the line just read, then handle it. -/
def Log.scan_step (st : Log.State) (line : LogLine) : Log.State :=
  let line_start := st.current_pos
  Log.handle_line
    { st with
      current_line := st.current_line + 1,
      current_pos := line_start + line.len,
      current_line_start := line_start }
    line

/-- `Log.handle_new_lines` (serviceManager.py lines 106-117).  `newLines`
is the sequence of strings the successive `f.readline()` calls return after
seeking to `current_pos`: every newline-terminated line and, when the file
content ends without a newline, the trailing unterminated line as well —
Python `readline` returns that partial text too, and the loop only stops at
the empty string. -/
def Log.handle_new_lines (st : Log.State) (newLines : List LogLine) : Log.State :=
  newLines.foldl Log.scan_step st

/-- Python `f.read(n)` after `f.seek(pos)` on a file with content `file`:
a negative `n` reads to end of file, otherwise at most `n` characters. -/
def pyRead (file : List Char) (pos : Nat) (n : Int) : List Char :=
  if n < 0 then file.drop pos else (file.drop pos).take n.toNat

/-- `Log.read_end` (serviceManager.py lines 139-165): read the last
`num_bytes` bytes, bounded by `max_read_size`, shifted back by
`backwards_offset`, and — when `respect_current_session` is set and a
session with a known start is open — clamped to not start before the open
session.  Returns the data and `f.tell()` after the read.  Arithmetic is
over `Int`, as in Python: `max 0` does the capping the source does
explicitly. -/
def Log.read_end (st : Log.State) (file : List Char) (num_bytes : Nat)
    (backwards_offset : Nat) (respect_current_session : Bool) : List Char × Int :=
  let file_size := file.length
  if file_size = 0 then ([], 0)
  else
    let actual_read_size : Int := min (num_bytes : Int) (st.max_read_size : Int)
    let start_pos0 : Int := max 0 ((file_size : Int) - actual_read_size - (backwards_offset : Int))
    let clamped : Int × Int :=
      match st.current_session with
      | some cs =>
        if respect_current_session then
          match cs.start_pos with
          | some sp =>
            (max start_pos0 (sp : Int),
              min actual_read_size ((file_size : Int) - max start_pos0 (sp : Int)))
          | none => (start_pos0, actual_read_size)
        else (start_pos0, actual_read_size)
      | none => (start_pos0, actual_read_size)
    let data := pyRead file clamped.1.toNat clamped.2
    (data, clamped.1 + data.length)

/-! ## Cached liveness of a `Service` (src/agent/serviceManager.py) -/

/-- The liveness cache of a `Service` (serviceManager.py lines 202-204):
`_last_is_running_check_stale_timeout_` (0.5 s at construction),
`_last_is_running_check_` and `_last_is_running_check_result_`. -/
structure ServiceLiveness where
  stale_timeout : ℚ
  last_check : ℚ
  last_result : Bool
deriving DecidableEq

/-- `Service.is_running` (serviceManager.py lines 233-240).  `now` is
`time.time()` and `has_session` is what the `tmux has-session` probe would
report at this moment (`returncode == 0`).  Returns the reported liveness,
the updated cache, and whether the external probe was actually spawned. -/
def Service.is_running (st : ServiceLiveness) (now : ℚ) (has_session : Bool)
    (force_refresh : Bool) : Bool × ServiceLiveness × Bool :=
  if force_refresh ∨ now - st.last_check > st.stale_timeout then
    (has_session, { st with last_result := has_session, last_check := now }, true)
  else
    (st.last_result, st, false)

/-- A wire frame whose declared payload length (`0x00100000`, i.e. 2^20
bytes, encoded big-endian in bytes 9-12) makes the total frame size
`13 + 2^20` bytes — larger than `Packet.MAX_PACKET_SIZE`.  Type byte 1
(RAW), all-zero subtype field, all-zero payload. -/
def oversizeFrame : List Nat :=
  [1] ++ (List.replicate 8 0 ++ ([0, 16, 0, 0] ++ List.replicate (2 ^ 20) 0))

/-! ## Library facts about the embedded primitives -/

/-- The scalar value of a character is in a valid range (below the
surrogates, or between them and U+110000). -/
theorem char_toNat_valid (c : Char) :
    c.toNat < 0xD800 ∨ (0xE000 ≤ c.toNat ∧ c.toNat < 0x110000) := by
  have h := c.valid
  simp [UInt32.isValidChar, Nat.isValidChar] at h
  exact h

/-- Decoding an encoded character at the front of a byte stream recovers the
character, spending one unit of fuel, and continues with the rest of the
stream. -/
theorem utf8DecodeLoop_encodeChar (f : Nat) (c : Char) (bs : List Nat) :
    utf8DecodeLoop (f + 1) (utf8EncodeChar c ++ bs) =
      (utf8DecodeLoop f bs).map (fun cs => c :: cs) := by
  have hv := char_toNat_valid c
  have hofNat : Char.ofNat c.toNat = c := Char.ofNat_toNat c
  by_cases h1 : c.toNat < 0x80
  · rw [utf8EncodeChar, if_pos h1, List.cons_append, List.nil_append, utf8DecodeLoop,
      if_pos h1, hofNat]
  · by_cases h2 : c.toNat < 0x800
    · rw [utf8EncodeChar, if_neg h1, if_pos h2]
      simp only [List.cons_append, List.nil_append]
      rw [utf8DecodeLoop, if_neg (by omega), if_neg (by omega), if_pos (by omega)]
      rw [dec2]
      simp only [List.drop_succ_cons, List.drop_zero]
      refine Eq.trans (if_pos ⟨by omega, by omega⟩) ?_
      have heq : cp2 (0xC0 + c.toNat / 64) (0x80 + c.toNat % 64) = c.toNat := by
        unfold cp2; omega
      simp only [heq, hofNat]
    · by_cases h3 : c.toNat < 0x10000
      · rw [utf8EncodeChar, if_neg h1, if_neg h2, if_pos h3]
        simp only [List.cons_append, List.nil_append]
        rw [utf8DecodeLoop, if_neg (by omega), if_neg (by omega), if_neg (by omega),
          if_pos (by omega)]
        rw [dec3]
        simp only [List.drop_succ_cons, List.drop_zero]
        have heq : cp3 (0xE0 + c.toNat / 4096) (0x80 + c.toNat / 64 % 64)
            (0x80 + c.toNat % 64) = c.toNat := by
          unfold cp3; omega
        refine Eq.trans (if_pos ⟨⟨by omega, by omega⟩, by omega, by omega⟩) ?_
        rw [if_neg (by rw [heq]; unfold bad3; omega)]
        simp only [heq, hofNat]
      · rw [utf8EncodeChar, if_neg h1, if_neg h2, if_neg h3]
        simp only [List.cons_append, List.nil_append]
        rw [utf8DecodeLoop, if_neg (by omega), if_neg (by omega), if_neg (by omega),
          if_neg (by omega), if_pos (by omega)]
        rw [dec4]
        simp only [List.drop_succ_cons, List.drop_zero]
        have heq : cp4 (0xF0 + c.toNat / 262144) (0x80 + c.toNat / 4096 % 64)
            (0x80 + c.toNat / 64 % 64) (0x80 + c.toNat % 64) = c.toNat := by
          unfold cp4; omega
        refine Eq.trans (if_pos ⟨⟨by omega, by omega⟩, ⟨by omega, by omega⟩,
          by omega, by omega⟩) ?_
        rw [if_neg (by rw [heq]; unfold bad4; omega)]
        simp only [heq, hofNat]

/-- With fuel at least the number of characters, the loop decodes the UTF-8
encoding of a character list back to the list. -/
theorem utf8DecodeLoop_flatMap (l : List Char) (f : Nat) (hf : l.length ≤ f) :
    utf8DecodeLoop f (l.flatMap utf8EncodeChar) = some l := by
  induction l generalizing f with
  | nil => cases f <;> rfl
  | cons c cs ih =>
    cases f with
    | zero => simp at hf
    | succ f2 =>
      rw [List.flatMap_cons, utf8DecodeLoop_encodeChar, ih f2 (by simp at hf; omega)]
      rfl

/-- Each character encodes to at least one byte. -/
theorem utf8EncodeChar_ne_nil (c : Char) : utf8EncodeChar c ≠ [] := by
  rw [utf8EncodeChar]
  split_ifs <;> simp

/-- A character list never has more entries than UTF-8 bytes. -/
theorem flatMap_utf8_length_ge (l : List Char) :
    l.length ≤ (l.flatMap utf8EncodeChar).length := by
  induction l with
  | nil => simp
  | cons c cs ih =>
    rw [List.flatMap_cons, List.length_append, List.length_cons]
    have hc : 1 ≤ (utf8EncodeChar c).length := by
      rw [utf8EncodeChar]
      split_ifs <;> simp
    omega

/-- Round trip of the string codec: decoding the encoding of any Python
string succeeds and recovers the string. -/
theorem utf8Decode_utf8Encode (s : String) :
    utf8Decode (utf8Encode s) = some s.data := by
  rw [utf8Decode, utf8Encode]
  exact utf8DecodeLoop_flatMap s.data _ (flatMap_utf8_length_ge s.data)

/-- A string never has more characters than UTF-8 bytes. -/
theorem length_le_utf8Encode_length (s : String) :
    s.length ≤ (utf8Encode s).length :=
  flatMap_utf8_length_ge s.data

/-- Dropping leading zeros of a zero replicate leaves nothing. -/
theorem dropWhile_zero_replicate (k : Nat) :
    List.dropWhile (fun b => b == 0) (List.replicate k (0 : Nat)) = [] := by
  induction k with
  | zero => rfl
  | succ n ih => simpa [List.replicate_succ] using ih

/-- Stripping trailing zeros ignores appended zero padding. -/
theorem rstrip0_append_replicate (bs : List Nat) (k : Nat) :
    rstrip0 (bs ++ List.replicate k 0) = rstrip0 bs := by
  unfold rstrip0
  rw [List.reverse_append, List.reverse_replicate, List.dropWhile_append,
    dropWhile_zero_replicate]
  simp

/-- A byte string whose last byte is not zero is unchanged by
zero-stripping. -/
theorem rstrip0_eq_self (bs : List Nat) (h : bs.getLast? ≠ some 0) :
    rstrip0 bs = bs := by
  unfold rstrip0
  rcases hrev : bs.reverse with _ | ⟨a, t⟩
  · simpa using congrArg List.reverse hrev
  · have hhead : bs.reverse.head? = some a := by rw [hrev]; rfl
    rw [List.head?_reverse] at hhead
    have ha : a ≠ 0 := fun h0 => h (h0 ▸ hhead)
    rw [List.dropWhile_cons_of_neg (by simpa using ha)]
    simpa using congrArg List.reverse hrev.symm

/-- The UTF-8 encoding of a character list ends in a zero byte only when the
list ends in the character U+0000. -/
theorem flatMap_utf8_getLast?_ne_zero (l : List Char) (h : l.getLast? ≠ some (Char.ofNat 0)) :
    (l.flatMap utf8EncodeChar).getLast? ≠ some 0 := by
  induction l with
  | nil => simp
  | cons c cs ih =>
    rcases cs with _ | ⟨c2, cs2⟩
    · simp only [List.flatMap_cons, List.flatMap_nil, List.append_nil]
      have hc : c ≠ Char.ofNat 0 := by simpa using h
      have hc0 : c.toNat ≠ 0 := fun h0 => hc (by rw [← h0, Char.ofNat_toNat])
      rw [utf8EncodeChar]
      split_ifs <;> simp <;> omega
    · have hlast : (c2 :: cs2).getLast? ≠ some (Char.ofNat 0) := by
        rw [← List.getLast?_cons_cons (a := c)]
        exact h
      rw [List.flatMap_cons,
        List.getLast?_append_of_ne_nil _ (by
          rw [List.flatMap_cons]
          intro hnil
          exact utf8EncodeChar_ne_nil c2 (List.append_eq_nil.mp hnil).1)]
      exact ih hlast

/-- The UTF-8 encoding of a string ends in a zero byte only when the string
ends in the character U+0000. -/
theorem utf8Encode_getLast?_ne_zero (s : String)
    (h : s.data.getLast? ≠ some (Char.ofNat 0)) :
    (utf8Encode s).getLast? ≠ some 0 :=
  flatMap_utf8_getLast?_ne_zero s.data h

/-- The length field occupies four bytes. -/
theorem to_length_length (n : Nat) : (Packet.to_length n).length = 4 := rfl

/-- Reading back a written length field recovers the length (for lengths
that fit 32 bits). -/
theorem get_length_to_length (n : Nat) (h : n < 2 ^ 32) :
    Packet.get_length (Packet.to_length n) = (n : Int) := by
  rw [Packet.to_length, Packet.get_length]
  norm_num [List.getD]
  omega

/-- Padding a byte string never shortens it below the requested width. -/
theorem ljust0_length (bs : List Nat) (w : Nat) (h : bs.length ≤ w) :
    (ljust0 bs w).length = w := by
  rw [ljust0, List.length_append, List.length_replicate]
  omega

/-- The padded subtype field of an encoded packet is exactly 8 bytes. -/
theorem subtype_field_length (p : Packet) :
    (ljust0 ((utf8Encode p.sub_type).take 8) 8).length = 8 :=
  ljust0_length _ _ (by simpa using List.length_take_le 8 (utf8Encode p.sub_type))

/-- An encoded frame is its 13-byte header plus the payload. -/
theorem to_bytes_length (p : Packet) :
    p.to_bytes.length = 13 + p.bytes.length := by
  rw [Packet.to_bytes]
  simp only [List.length_append, subtype_field_length, to_length_length,
    List.length_singleton]

/-- Splitting an encoded frame after the 9 type/subtype bytes. -/
theorem to_bytes_decomp (p : Packet) :
    p.to_bytes = ([p.type] ++ ljust0 ((utf8Encode p.sub_type).take 8) 8) ++
      (Packet.to_length p.bytes.length ++ p.bytes) := by
  rw [Packet.to_bytes]
  simp [List.append_assoc]

/-- The length field slice of an encoded frame. -/
theorem length_slice_to_bytes_append (p : Packet) (rest : List Nat) :
    ((p.to_bytes ++ rest).drop 9).take 4 = Packet.to_length p.bytes.length := by
  have hbuf : p.to_bytes ++ rest =
      ([p.type] ++ ljust0 ((utf8Encode p.sub_type).take 8) 8) ++
        (Packet.to_length p.bytes.length ++ (p.bytes ++ rest)) := by
    rw [to_bytes_decomp]
    simp [List.append_assoc]
  rw [hbuf, List.drop_left' (by simp [subtype_field_length]),
    List.take_left' (to_length_length _)]

/-- A frame followed by arbitrary trailing bytes passes the completeness
check. -/
theorem check_complete_to_bytes_append (p : Packet) (rest : List Nat)
    (hcap : p.bytes.length < 2 ^ 32) :
    Packet.check_complete (p.to_bytes ++ rest) = true := by
  have hlen : (p.to_bytes ++ rest).length = 13 + p.bytes.length + rest.length := by
    rw [List.length_append, to_bytes_length]
  rw [Packet.check_complete, length_slice_to_bytes_append,
    get_length_to_length _ hcap, if_neg (by omega)]
  simp only [decide_eq_true_eq, hlen]
  push_cast
  omega

/-- The subtype field slice of an encoded frame. -/
theorem subtype_slice_to_bytes_append (p : Packet) (rest : List Nat)
    (h8 : (utf8Encode p.sub_type).length ≤ 8) :
    ((p.to_bytes ++ rest).drop 1).take 8 = ljust0 (utf8Encode p.sub_type) 8 := by
  have hbuf : p.to_bytes ++ rest =
      [p.type] ++ (ljust0 ((utf8Encode p.sub_type).take 8) 8 ++
        (Packet.to_length p.bytes.length ++ (p.bytes ++ rest))) := by
    rw [to_bytes_decomp]
    simp [List.append_assoc]
  rw [hbuf, List.drop_left' (by simp), List.take_left' (subtype_field_length p),
    List.take_of_length_le h8]

/-- The payload slice of an encoded frame. -/
theorem payload_slice_to_bytes_append (p : Packet) (rest : List Nat) (n : Nat)
    (hn : n = p.bytes.length) :
    ((p.to_bytes ++ rest).drop 13).take n = p.bytes := by
  subst hn
  have hbuf : p.to_bytes ++ rest =
      (([p.type] ++ ljust0 ((utf8Encode p.sub_type).take 8) 8) ++
        Packet.to_length p.bytes.length) ++ (p.bytes ++ rest) := by
    rw [to_bytes_decomp]
    simp [List.append_assoc]
  rw [hbuf, List.drop_left' (by simp [subtype_field_length, to_length_length]),
    List.take_left' rfl]

/-- The first byte of an encoded frame is the type byte. -/
theorem head_to_bytes_append (p : Packet) (rest : List Nat) :
    (p.to_bytes ++ rest).getD 0 0 = p.type := by
  rw [Packet.to_bytes]
  rfl

/-- Decoding an encoded frame (with arbitrary trailing bytes) runs the
constructor on exactly the original type, subtype and payload: the subtype
must fit the 8-byte field and its encoding must not end in a zero byte (the
padding strip would eat it), and the payload length must fit the 32-bit
length field. -/
theorem from_buffer_to_bytes_append (jsonLoadsOk : String → Bool) (p : Packet)
    (rest : List Nat)
    (h8 : (utf8Encode p.sub_type).length ≤ 8)
    (hz : (utf8Encode p.sub_type).getLast? ≠ some 0)
    (hcap : p.bytes.length < 2 ^ 32) :
    Packet.from_buffer jsonLoadsOk (p.to_bytes ++ rest) =
      Packet.init jsonLoadsOk p.type p.sub_type p.bytes := by
  have hcc := check_complete_to_bytes_append p rest hcap
  have hsub : utf8Decode (rstrip0 (((p.to_bytes ++ rest).drop 1).take 8)) =
      some p.sub_type.data := by
    rw [subtype_slice_to_bytes_append p rest h8, ljust0, rstrip0_append_replicate,
      rstrip0_eq_self _ hz, utf8Decode_utf8Encode]
  rw [Packet.from_buffer, if_neg (by simp [hcc]), hsub]
  show Packet.init jsonLoadsOk ((p.to_bytes ++ rest).getD 0 0) (String.mk p.sub_type.data)
    (((p.to_bytes ++ rest).drop 13).take
      (Packet.get_length (((p.to_bytes ++ rest).drop 9).take 4)).toNat) = _
  rw [head_to_bytes_append, length_slice_to_bytes_append, get_length_to_length _ hcap,
    Int.toNat_natCast, payload_slice_to_bytes_append p rest _ rfl]

/-- A successfully constructed packet carries exactly the given fields. -/
theorem init_ok_fields (jsonLoadsOk : String → Bool) (t : Nat) (st : String)
    (bs : List Nat) (p : Packet) (h : Packet.init jsonLoadsOk t st bs = .ok p) :
    p.type = t ∧ p.sub_type = st ∧ p.bytes = bs ∧ p.full_size = 13 + bs.length := by
  rw [Packet.init] at h
  by_cases h1 : st.length > Packet.MAX_SUBTYPE_LEN
  · rw [if_pos h1] at h
    cases h
  · rw [if_neg h1] at h
    by_cases h2 : t = Packet.Type.JSON
    · rw [if_pos h2] at h
      cases hd : utf8Decode bs with
      | none => rw [hd] at h; cases h
      | some cs =>
        rw [hd] at h
        dsimp only at h
        by_cases h3 : jsonLoadsOk (String.mk cs) = true
        · rw [if_pos h3] at h
          cases h
          exact ⟨rfl, rfl, rfl, rfl⟩
        · rw [if_neg h3] at h
          cases h
    · rw [if_neg h2] at h
      cases h
      exact ⟨rfl, rfl, rfl, rfl⟩

/-! ## Facts about the log tracker -/

/-- Closing a session does not move the scan cursor. -/
theorem end_session_current_pos (st : Log.State) (p : Nat) (t : Option Int) :
    (Log.end_session st p t).current_pos = st.current_pos := by
  rw [Log.end_session]
  split <;> rfl

/-- Handling a line only rearranges sessions, never the scan cursor. -/
theorem handle_line_current_pos (st : Log.State) (line : LogLine) :
    (Log.handle_line st line).current_pos = st.current_pos := by
  cases line with
  | plain n => rfl
  | marker name tags ts n =>
    rw [Log.handle_line]
    dsimp only [Log.Marker.from_line]
    by_cases hs : name = "START"
    · rw [if_pos hs]
      dsimp only
      split
      · rw [end_session_current_pos]
        exact end_session_current_pos _ _ _
      · exact end_session_current_pos _ _ _
    · rw [if_neg hs]
      split
      · rfl
      · split
        · rw [end_session_current_pos]
        · rfl

/-- One loop iteration moves the cursor exactly past the line read. -/
theorem scan_step_current_pos (st : Log.State) (line : LogLine) :
    (Log.scan_step st line).current_pos = st.current_pos + line.len := by
  rw [Log.scan_step, handle_line_current_pos]

/-- A scan moves the cursor by the total length of all lines `readline`
returned. -/
theorem handle_new_lines_current_pos (st : Log.State) (ls : List LogLine) :
    (Log.handle_new_lines st ls).current_pos = st.current_pos + (ls.map LogLine.len).sum := by
  induction ls generalizing st with
  | nil => simp [Log.handle_new_lines]
  | cons l rest ih =>
    rw [Log.handle_new_lines, List.foldl_cons, ← Log.handle_new_lines, ih,
      scan_step_current_pos]
    simp
    omega

/-! ## The claims -/

/-- C1: starting from a fresh tracker, scanning a file holding, in order, a
START marker at time `t0`, two ordinary lines, a STOP marker at time `t1`,
a START marker at time `t2` and one ordinary line yields exactly one closed
session in the history, with start time `t0` and end time `t1`, and a
currently open session with start time `t2` and null end position and end
time. -/
theorem log_session_reconstruction (t0 t1 t2 : Int) (tg0 tg1 tg2 : List String)
    (l1 l2 l3 l4 l5 l6 : Nat) :
    (Log.handle_new_lines Log.State.init
        [.marker "START" tg0 t0 l1, .plain l2, .plain l3, .marker "STOP" tg1 t1 l4,
         .marker "START" tg2 t2 l5, .plain l6]).old_sessions.map
        (fun s => (s.start_time, s.end_time)) = [(some t0, some t1)] ∧
    (Log.handle_new_lines Log.State.init
        [.marker "START" tg0 t0 l1, .plain l2, .plain l3, .marker "STOP" tg1 t1 l4,
         .marker "START" tg2 t2 l5, .plain l6]).current_session.map
        (fun s => (s.start_time, s.end_pos, s.end_time)) = some (some t2, none, none) := by
  simp [Log.handle_new_lines, Log.scan_step, Log.handle_line, Log.Marker.from_line,
    Log.end_session, Log.State.init, LogLine.len]

/-- C10: handling a START marker line leaves the newly opened session with
the marker appended twice — once by the START branch and once by the
generic fall-through branch. -/
theorem start_marker_double_append (st : Log.State) (tags : List String) (ts : Int)
    (n : Nat) :
    (Log.handle_line st (.marker "START" tags ts n)).current_session.map
        Log.SessionInfo.markers =
      some [⟨"START", tags, ts, st.current_line_start, st.current_line⟩,
        ⟨"START", tags, ts, st.current_line_start, st.current_line⟩] := by
  simp [Log.handle_line, Log.Marker.from_line, Log.end_session]

/-- C3 counterexample: scanning a fresh tracker over a complete 5-character
line followed by a trailing line of 20 characters with no terminator (here
a line whose text happens to be a complete START marker), the cursor ends
at 25 — past the trailing line, not at its start (5) — and the trailing
line has already been parsed as a marker (a session is open). -/
theorem scan_trailing_line_consumed_cx :
    (Log.handle_new_lines Log.State.init [.plain 5, .marker "START" [] 7 20]).current_pos
        = 25 ∧
    (Log.handle_new_lines Log.State.init [.plain 5, .marker "START" [] 7 20]).current_pos
        ≠ 5 ∧
    (Log.handle_new_lines Log.State.init
        [.plain 5, .marker "START" [] 7 20]).current_session ≠ none := by
  decide

/-- C3 (amended): `handle_new_lines` consumes every line `readline`
returns, including a trailing line with no terminator: after scanning the
terminated lines `done` followed by the unterminated trailing line `part`,
the cursor sits past `part` (at end of file), not at its start, and `part`
was handled in the same scan. -/
theorem scan_advances_past_all_returned_lines (st : Log.State) (done : List LogLine)
    (part : LogLine) :
    (Log.handle_new_lines st (done ++ [part])).current_pos =
      st.current_pos + ((done.map LogLine.len).sum + part.len) ∧
    Log.handle_new_lines st (done ++ [part]) =
      Log.scan_step (Log.handle_new_lines st done) part := by
  constructor
  · rw [handle_new_lines_current_pos]
    simp
  · rw [Log.handle_new_lines, Log.handle_new_lines, List.foldl_append, List.foldl_cons,
      List.foldl_nil]

/-- A constructor call with a subtype of at most 8 characters and (for JSON
packets) a parsable payload succeeds, returning exactly the given fields. -/
theorem init_ok_of (jsonLoadsOk : String → Bool) (t : Nat) (stp : String) (bs : List Nat)
    (hlen : stp.length ≤ Packet.MAX_SUBTYPE_LEN)
    (hj : t = Packet.Type.JSON →
      ∃ s, utf8Decode bs = some s ∧ jsonLoadsOk (String.mk s) = true) :
    ∃ q, Packet.init jsonLoadsOk t stp bs = .ok q ∧ q.type = t ∧ q.sub_type = stp ∧
      q.bytes = bs ∧ q.full_size = 13 + bs.length := by
  rw [Packet.init, if_neg (by omega)]
  by_cases ht : t = Packet.Type.JSON
  · obtain ⟨s, hs, hok⟩ := hj ht
    rw [if_pos ht, hs]
    dsimp only
    rw [if_pos hok]
    exact ⟨_, rfl, rfl, rfl, rfl, rfl⟩
  · rw [if_neg ht]
    exact ⟨_, rfl, rfl, rfl, rfl, rfl⟩

/-- C2 (amended): for every packet constructed with a recognized type (RAW
or JSON), a subtype whose UTF-8 encoding is at most 8 bytes AND does not
end in a zero byte (a trailing U+0000 would be eaten by the padding strip
on decode — see the counterexample), and a payload within the 1 MiB cap
(valid JSON for JSON-typed packets, witnessed by the successful
construction), decoding the encoded bytes yields the packet back exactly,
and the consumed size `full_size` is 13 plus the payload length. -/
theorem packet_roundtrip (jsonLoadsOk : String → Bool) (t : Nat) (stp : String)
    (pl : List Nat) (p : Packet)
    (ht : t = Packet.Type.RAW ∨ t = Packet.Type.JSON)
    (h8 : (utf8Encode stp).length ≤ 8)
    (hz : (utf8Encode stp).getLast? ≠ some 0)
    (hcap : pl.length ≤ Packet.MAX_PACKET_SIZE)
    (hp : Packet.init jsonLoadsOk t stp pl = .ok p) :
    Packet.from_buffer jsonLoadsOk p.to_bytes = .ok p ∧ p.full_size = 13 + pl.length := by
  clear ht
  obtain ⟨hty, hst, hby, hfs⟩ := init_ok_fields _ _ _ _ _ hp
  have hcap32 : p.bytes.length < 2 ^ 32 := by
    rw [hby]
    have hm : Packet.MAX_PACKET_SIZE = 1024 * 1024 := rfl
    rw [hm] at hcap
    omega
  refine ⟨?_, hfs⟩
  have hfb := from_buffer_to_bytes_append jsonLoadsOk p [] (by rw [hst]; exact h8)
    (by rw [hst]; exact hz) hcap32
  rw [List.append_nil] at hfb
  rw [hfb, hty, hst, hby, hp]

/-- C2 counterexample: the subtype `"a\u0000"` encodes to 2 bytes (within
the 8-byte bound of the claim) and the packet constructs fine, but decoding
its encoding strips the trailing zero byte together with the padding and
returns subtype `"a"`, different from the original — the claimed round trip
fails as stated. -/
theorem packet_roundtrip_nul_subtype_cx :
    (utf8Encode (String.mk ['a', Char.ofNat 0])).length ≤ 8 ∧
    Packet.init (fun _ => true) Packet.Type.RAW (String.mk ['a', Char.ofNat 0]) [] =
      .ok ⟨1, String.mk ['a', Char.ofNat 0], [], 13, none⟩ ∧
    Packet.from_buffer (fun _ => true)
        (Packet.to_bytes ⟨1, String.mk ['a', Char.ofNat 0], [], 13, none⟩) =
      .ok ⟨1, "a", [], 13, none⟩ ∧
    ("a" : String) ≠ String.mk ['a', Char.ofNat 0] :=
  ⟨by decide, rfl, rfl, by decide⟩

/-- Witness for C2: the round trip at a RAW packet with subtype `"AB"` and
payload `[7, 8]`. -/
theorem packet_roundtrip_witness :
    Packet.from_buffer (fun _ => true) (Packet.to_bytes ⟨1, "AB", [7, 8], 15, none⟩) =
      .ok ⟨1, "AB", [7, 8], 15, none⟩ ∧
      (⟨1, "AB", [7, 8], 15, none⟩ : Packet).full_size = 13 + [7, 8].length :=
  packet_roundtrip (fun _ => true) 1 "AB" [7, 8] ⟨1, "AB", [7, 8], 15, none⟩
    (Or.inl rfl) (by decide) (by decide) (by decide) rfl

/-- The subtype field slice of an encoded frame, before padding-stripping
(holds with no assumption on the subtype length: an over-long encoding is
truncated to its first 8 bytes). -/
theorem subtype_field_slice_append (p : Packet) (rest : List Nat) :
    ((p.to_bytes ++ rest).drop 1).take 8 = ljust0 ((utf8Encode p.sub_type).take 8) 8 := by
  have hbuf : p.to_bytes ++ rest =
      [p.type] ++ (ljust0 ((utf8Encode p.sub_type).take 8) 8 ++
        (Packet.to_length p.bytes.length ++ (p.bytes ++ rest))) := by
    rw [to_bytes_decomp]
    simp [List.append_assoc]
  rw [hbuf, List.drop_left' (by simp), List.take_left' (subtype_field_length p)]

/-- C5 (amended): the constructor guards the subtype by its CHARACTER count
(Python `len` on `str`), not by its UTF-8 byte count: a subtype longer than
8 characters is rejected with the `ValueError`, while a subtype of at most
8 characters is always accepted — even when its UTF-8 encoding exceeds 8
bytes, in which case the encoder silently truncates the subtype field to
the first 8 encoded bytes and the emitted frame cannot carry the full
subtype. -/
theorem subtype_check_is_char_count (jsonLoadsOk : String → Bool) (stp : String)
    (pl : List Nat) :
    (stp.length > 8 →
      Packet.init jsonLoadsOk Packet.Type.RAW stp pl =
        .error (.valueError "Sub-type too long (max 8 characters)")) ∧
    (stp.length ≤ 8 → ∃ p, Packet.init jsonLoadsOk Packet.Type.RAW stp pl = .ok p ∧
      (p.to_bytes.drop 1).take 8 = ljust0 ((utf8Encode stp).take 8) 8 ∧
      ((utf8Encode stp).length > 8 → (p.to_bytes.drop 1).take 8 ≠ utf8Encode stp)) := by
  constructor
  · intro hgt
    rw [Packet.init, if_pos (show stp.length > Packet.MAX_SUBTYPE_LEN from hgt)]
  · intro hle
    obtain ⟨p, hp, hty, hst, hby, hfs⟩ :=
      init_ok_of jsonLoadsOk Packet.Type.RAW stp pl hle (fun h => absurd h (by decide))
    have hslice : (p.to_bytes.drop 1).take 8 = ljust0 ((utf8Encode stp).take 8) 8 := by
      have hs := subtype_field_slice_append p []
      rw [List.append_nil] at hs
      rw [hs, hst]
    refine ⟨p, hp, hslice, fun hgt8 hcontra => ?_⟩
    rw [hslice] at hcontra
    have hlenf := congrArg List.length hcontra
    rw [ljust0_length _ _ (by simpa using List.length_take_le 8 (utf8Encode stp))] at hlenf
    omega

/-- C5 counterexample: `"ααααα"` is 5 characters but its UTF-8 encoding is
10 bytes (each alpha is 2 bytes) — more than the 8 wire bytes — yet
construction SUCCEEDS (the claim says it must fail with the subtype error),
and encoding emits a frame whose 8-byte subtype field holds only the first
four characters: a silently truncated wire frame. -/
theorem oversize_subtype_construction_cx :
    (utf8Encode "ααααα").length = 10 ∧
    Packet.init (fun _ => true) Packet.Type.RAW "ααααα" [] =
      .ok ⟨1, "ααααα", [], 13, none⟩ ∧
    Packet.to_bytes ⟨1, "ααααα", [], 13, none⟩ =
      [1, 206, 177, 206, 177, 206, 177, 206, 177, 0, 0, 0, 0] :=
  ⟨by decide, rfl, by decide⟩

/-- Witness for C5: the accepting branch of the amended claim at the
5-character, 10-byte subtype `"ααααα"`. -/
theorem subtype_check_is_char_count_witness :
    ∃ p, Packet.init (fun _ => true) Packet.Type.RAW "ααααα" [] = .ok p ∧
      (p.to_bytes.drop 1).take 8 = ljust0 ((utf8Encode "ααααα").take 8) 8 ∧
      ((utf8Encode "ααααα").length > 8 → (p.to_bytes.drop 1).take 8 ≠ utf8Encode "ααααα") :=
  (subtype_check_is_char_count (fun _ => true) "ααααα" []).2 (by decide)

/-- C7: the size cap `MAX_PACKET_SIZE` is declared but never enforced — a
frame whose 4-byte length field declares a 2^20-byte payload (total
`13 + 2^20` bytes, above the 1 MiB cap) passes `check_complete` and is
decoded by `from_buffer` into an ordinary packet instead of being treated
as a protocol violation. -/
theorem oversize_frame_accepted :
    oversizeFrame.length > Packet.MAX_PACKET_SIZE ∧
    Packet.check_complete oversizeFrame = true ∧
    ∃ p, Packet.from_buffer (fun _ => true) oversizeFrame = .ok p ∧
      p.bytes = List.replicate (2 ^ 20) 0 ∧ p.full_size = 13 + 2 ^ 20 := by
  have hrl : (List.replicate (2 ^ 20) (0 : Nat)).length = 2 ^ 20 :=
    List.length_replicate _ _
  have hform : oversizeFrame =
      Packet.to_bytes ⟨1, "", List.replicate (2 ^ 20) 0, 13 + 2 ^ 20, none⟩ := by
    rw [Packet.to_bytes, hrl]
    rw [show ljust0 ((utf8Encode "").take 8) 8 = List.replicate 8 0 from rfl,
      show Packet.to_length (2 ^ 20) = [0, 16, 0, 0] from by decide]
    rw [oversizeFrame, List.append_assoc]
    rfl
  have h8 : (utf8Encode ("" : String)).length ≤ 8 := by decide
  have hz : (utf8Encode ("" : String)).getLast? ≠ some 0 := by decide
  have hcap : (List.replicate (2 ^ 20) (0 : Nat)).length < 2 ^ 32 := by
    rw [hrl]
    norm_num
  have hfb : Packet.from_buffer (fun _ => true) oversizeFrame =
      Packet.init (fun _ => true) 1 "" (List.replicate (2 ^ 20) 0) := by
    rw [hform, show Packet.to_bytes ⟨1, "", List.replicate (2 ^ 20) 0, 13 + 2 ^ 20, none⟩ =
      Packet.to_bytes ⟨1, "", List.replicate (2 ^ 20) 0, 13 + 2 ^ 20, none⟩ ++ [] from
        (List.append_nil _).symm]
    exact from_buffer_to_bytes_append (fun _ => true)
      ⟨1, "", List.replicate (2 ^ 20) 0, 13 + 2 ^ 20, none⟩ [] h8 hz hcap
  have hcc : Packet.check_complete oversizeFrame = true := by
    rw [hform, show Packet.to_bytes ⟨1, "", List.replicate (2 ^ 20) 0, 13 + 2 ^ 20, none⟩ =
      Packet.to_bytes ⟨1, "", List.replicate (2 ^ 20) 0, 13 + 2 ^ 20, none⟩ ++ [] from
        (List.append_nil _).symm]
    exact check_complete_to_bytes_append _ [] hcap
  obtain ⟨q, hq, hqt, hqs, hqb, hqf⟩ := init_ok_of (fun _ => true) 1 ""
    (List.replicate (2 ^ 20) 0) (by decide) (fun h => absurd h (by decide))
  have hlen : oversizeFrame.length = 13 + 2 ^ 20 := by
    rw [oversizeFrame]
    rw [List.length_append, List.length_append, List.length_append,
      List.length_replicate, List.length_replicate,
      show ([1] : List Nat).length = 1 from rfl,
      show ([0, 16, 0, 0] : List Nat).length = 4 from rfl]
    omega
  refine ⟨?_, hcc, q, by rw [hfb, hq], hqb, by rw [hqf, hrl]⟩
  rw [hlen]
  decide

/-- An encoded frame is never the empty byte string. -/
theorem to_bytes_isEmpty_false (p : Packet) (rest : List Nat) :
    (p.to_bytes ++ rest).isEmpty = false := by
  rw [Packet.to_bytes]
  rfl

/-- C4 (amended): a connection whose single read delivers two complete
back-to-back frames yields, in that tick, exactly ONE dispatched packet —
the first frame, decoded correctly — while the second frame remains,
complete and untouched, at the front of the buffer for the next tick (the
loop calls `get_next_packet` once per connection per tick).  Stated for a
first frame whose subtype invokes no printing handler, so that its dispatch
cannot itself raise. -/
theorem tick_dispatches_one_frame_per_tick
    (jsonLoadsOk : String → Bool) (jsonMessage : String → Except PyError String)
    (now : ℚ) (c : Connection) (p1 p2 : Packet)
    (hopen : c.closed = false)
    (hfresh : now - c.last_active ≤ DEFAULT_CLIENT_TIMEOUT)
    (hbuf : c.buffer = [])
    (h8 : (utf8Encode p1.sub_type).length ≤ 8)
    (hz : (utf8Encode p1.sub_type).getLast? ≠ some 0)
    (hcap1 : p1.bytes.length < 2 ^ 32)
    (hjson1 : p1.type = Packet.Type.JSON →
      ∃ s, utf8Decode p1.bytes = some s ∧ jsonLoadsOk (String.mk s) = true)
    (hnp : p1.sub_type ≠ "PRINT" ∧ p1.sub_type ≠ "PRINT_J")
    (hcap2 : p2.bytes.length < 2 ^ 32) :
    ∃ q1 c1,
      tick_connections jsonLoadsOk jsonMessage now
          [(c, .bytes (p1.to_bytes ++ p2.to_bytes))] = .ok ([c1], [q1], []) ∧
      q1.type = p1.type ∧ q1.sub_type = p1.sub_type ∧ q1.bytes = p1.bytes ∧
      c1.buffer = p2.to_bytes ∧ Packet.check_complete p2.to_bytes = true := by
  obtain ⟨q1, hq, hqt, hqs, hqb, hqf⟩ := init_ok_of jsonLoadsOk p1.type p1.sub_type p1.bytes
    (le_trans (length_le_utf8Encode_length p1.sub_type) h8) hjson1
  have hct : c.check_timeout now DEFAULT_CLIENT_TIMEOUT = (true, c) := by
    rw [Connection.check_timeout, if_neg (not_lt.mpr hfresh)]
  have hfill : c.fill_buffer now (.bytes (p1.to_bytes ++ p2.to_bytes)) =
      { c with buffer := p1.to_bytes ++ p2.to_bytes, last_active := now } := by
    rw [Connection.fill_buffer]
    rw [if_neg (by rw [to_bytes_isEmpty_false]; exact Bool.false_ne_true), hbuf,
      List.nil_append]
  have hcc : Packet.check_complete (p1.to_bytes ++ p2.to_bytes) = true :=
    check_complete_to_bytes_append p1 p2.to_bytes hcap1
  have hfb : Packet.from_buffer jsonLoadsOk (p1.to_bytes ++ p2.to_bytes) = .ok q1 := by
    rw [from_buffer_to_bytes_append jsonLoadsOk p1 p2.to_bytes h8 hz hcap1, hq]
  have hgnp : Connection.get_next_packet jsonLoadsOk
      { c with buffer := p1.to_bytes ++ p2.to_bytes, last_active := now } =
      .ok (some q1, { c with buffer := p2.to_bytes, last_active := now }) := by
    rw [Connection.get_next_packet]
    dsimp only
    rw [if_neg (by rw [hcc]; exact fun h => h rfl), hfb]
    dsimp only
    rw [hqf, List.drop_left' (to_bytes_length p1)]
  have hdisp : dispatch_packet jsonMessage q1
      { c with buffer := p2.to_bytes, last_active := now } =
      .ok ((if q1.sub_type = "CLOSE" then
        Connection.close { c with buffer := p2.to_bytes, last_active := now }
        else { c with buffer := p2.to_bytes, last_active := now }), []) := by
    rw [dispatch_packet]
    simp only [hqs, if_neg hnp.1, if_neg hnp.2]
    rfl
  refine ⟨q1, (if q1.sub_type = "CLOSE" then
      Connection.close { c with buffer := p2.to_bytes, last_active := now }
      else { c with buffer := p2.to_bytes, last_active := now }), ?_, hqt, hqs, hqb, ?_, ?_⟩
  · rw [tick_connections,
      show [(c, RecvEvent.bytes (p1.to_bytes ++ p2.to_bytes))].filter
          (fun ce => ! ce.1.closed) = [(c, RecvEvent.bytes (p1.to_bytes ++ p2.to_bytes))] by
        rw [List.filter_cons, List.filter_nil, hopen]
        rfl]
    rw [tick_loop, process_connection, hct]
    dsimp only
    rw [hfill, hgnp]
    dsimp only
    rw [hdisp]
    rfl
  · split <;> rfl
  · have h := check_complete_to_bytes_append p2 [] hcap2
    rw [List.append_nil] at h
    exact h

/-- C4 counterexample: a fresh connection receives two complete valid RAW
frames (subtypes `"A"` and `"B"`) in one read; the tick dispatches exactly
one packet (`"A"`), not two, and a complete frame (`"B"`) is left in the
buffer. -/
theorem tick_two_frames_single_packet_cx :
    tick_connections (fun _ => true) (fun _ => .error .keyError) 0
        [(⟨[], 0, false⟩, .bytes
          ([1, 65, 0, 0, 0, 0, 0, 0, 0, 0, 0, 0, 1, 65] ++
           [1, 66, 0, 0, 0, 0, 0, 0, 0, 0, 0, 0, 1, 66]))] =
      .ok ([⟨[1, 66, 0, 0, 0, 0, 0, 0, 0, 0, 0, 0, 1, 66], 0, false⟩],
        [⟨1, "A", [65], 14, none⟩], []) ∧
    Packet.check_complete [1, 66, 0, 0, 0, 0, 0, 0, 0, 0, 0, 0, 1, 66] = true := by
  refine ⟨?_, by decide⟩
  rw [tick_connections,
    show (List.filter (fun ce => ! ce.1.closed)
        [((⟨[], 0, false⟩ : Connection), RecvEvent.bytes
          ([1, 65, 0, 0, 0, 0, 0, 0, 0, 0, 0, 0, 1, 65] ++
           [1, 66, 0, 0, 0, 0, 0, 0, 0, 0, 0, 0, 1, 66]))]) =
        [((⟨[], 0, false⟩ : Connection), RecvEvent.bytes
          ([1, 65, 0, 0, 0, 0, 0, 0, 0, 0, 0, 0, 1, 65] ++
           [1, 66, 0, 0, 0, 0, 0, 0, 0, 0, 0, 0, 1, 66]))] from by
      rw [List.filter_cons, List.filter_nil]
      rfl]
  rw [tick_loop, process_connection, Connection.check_timeout,
    if_neg (by norm_num [DEFAULT_CLIENT_TIMEOUT])]
  rfl

/-- Witness for C4: the amended single-frame-per-tick behaviour at two
concrete RAW frames. -/
theorem tick_dispatches_one_frame_per_tick_witness :
    ∃ q1 c1,
      tick_connections (fun _ => true) (fun _ => .error .keyError) 0
          [(⟨[], 0, false⟩, .bytes
            (Packet.to_bytes ⟨1, "A", [65], 14, none⟩ ++
             Packet.to_bytes ⟨1, "B", [66], 14, none⟩))] = .ok ([c1], [q1], []) ∧
      q1.type = (⟨1, "A", [65], 14, none⟩ : Packet).type ∧
      q1.sub_type = (⟨1, "A", [65], 14, none⟩ : Packet).sub_type ∧
      q1.bytes = (⟨1, "A", [65], 14, none⟩ : Packet).bytes ∧
      c1.buffer = Packet.to_bytes ⟨1, "B", [66], 14, none⟩ ∧
      Packet.check_complete (Packet.to_bytes ⟨1, "B", [66], 14, none⟩) = true :=
  tick_dispatches_one_frame_per_tick (fun _ => true) (fun _ => .error .keyError) 0
    ⟨[], 0, false⟩ ⟨1, "A", [65], 14, none⟩ ⟨1, "B", [66], 14, none⟩ rfl
    (by norm_num [DEFAULT_CLIENT_TIMEOUT]) rfl
    (by decide) (by decide) (by decide) (fun h => absurd h (by decide))
    ⟨by decide, by decide⟩ (by decide)

/-- C6 (amended): when the buffered complete frame of a live, fresh
connection fails to decode (`from_buffer` raises), the per-connection pass
of `tick` re-raises that error: nothing catches it, the supervisor loop
would terminate, and the connection is not closed by any handler. -/
theorem tick_decode_error_propagates (jsonLoadsOk : String → Bool)
    (jsonMessage : String → Except PyError String) (now : ℚ) (c : Connection) (e : PyError)
    (hopen : c.closed = false)
    (hfresh : now - c.last_active ≤ DEFAULT_CLIENT_TIMEOUT)
    (hcomplete : Packet.check_complete c.buffer = true)
    (herr : Packet.from_buffer jsonLoadsOk c.buffer = .error e) :
    tick_connections jsonLoadsOk jsonMessage now [(c, .noData)] = .error e := by
  have hct : c.check_timeout now DEFAULT_CLIENT_TIMEOUT = (true, c) := by
    rw [Connection.check_timeout, if_neg (not_lt.mpr hfresh)]
  have hfill : c.fill_buffer now .noData = c := by
    rw [Connection.fill_buffer]
  have hgnp : Connection.get_next_packet jsonLoadsOk c = .error e := by
    rw [Connection.get_next_packet, if_neg (by rw [hcomplete]; exact fun h => h rfl), herr]
  rw [tick_connections,
    show [(c, RecvEvent.noData)].filter (fun ce => ! ce.1.closed) =
        [(c, RecvEvent.noData)] by
      rw [List.filter_cons, List.filter_nil, hopen]
      rfl]
  rw [tick_loop, process_connection, hct]
  dsimp only
  rw [hfill, hgnp]
  rfl

/-- C6 counterexample: a connection holding a complete frame whose subtype
field starts with the invalid UTF-8 byte `0xFF` makes the tick raise
`ValueError("Invalid sub-type encoding")` instead of closing the connection
and returning normally. -/
theorem tick_decode_error_cx :
    Packet.check_complete [1, 255, 0, 0, 0, 0, 0, 0, 0, 0, 0, 0, 0] = true ∧
    tick_connections (fun _ => true) (fun _ => .error .keyError) 0
        [(⟨[1, 255, 0, 0, 0, 0, 0, 0, 0, 0, 0, 0, 0], 0, false⟩, .noData)] =
      .error (.valueError "Invalid sub-type encoding") := by
  refine ⟨by decide, ?_⟩
  rw [tick_connections,
    show (List.filter (fun ce => ! ce.1.closed)
        [((⟨[1, 255, 0, 0, 0, 0, 0, 0, 0, 0, 0, 0, 0], 0, false⟩ : Connection),
          RecvEvent.noData)]) =
        [((⟨[1, 255, 0, 0, 0, 0, 0, 0, 0, 0, 0, 0, 0], 0, false⟩ : Connection),
          RecvEvent.noData)] from by
      rw [List.filter_cons, List.filter_nil]
      rfl]
  rw [tick_loop, process_connection, Connection.check_timeout,
    if_neg (by norm_num [DEFAULT_CLIENT_TIMEOUT])]
  rfl

/-- Witness for C6: the error propagation at a concrete frame with an
invalid UTF-8 subtype byte. -/
theorem tick_decode_error_propagates_witness :
    tick_connections (fun _ => true) (fun _ => .error .keyError) 0
        [(⟨[1, 255, 1, 0, 0, 0, 0, 0, 0, 0, 0, 0, 0], 0, false⟩, .noData)] =
      .error (.valueError "Invalid sub-type encoding") :=
  tick_decode_error_propagates (fun _ => true) (fun _ => .error .keyError) 0
    ⟨[1, 255, 1, 0, 0, 0, 0, 0, 0, 0, 0, 0, 0], 0, false⟩
    (.valueError "Invalid sub-type encoding") rfl (by norm_num [DEFAULT_CLIENT_TIMEOUT])
    (by decide) rfl

/-- C8: with a session open whose start position is known, every byte
`read_end` returns with `respect_current_session = true` lies at or after
that start position: the returned data is a slice of the file taken at an
offset no smaller than the session start.  (The 1000-byte file with a
session at offset 500 of the claim is the witness.) -/
theorem read_end_respects_open_session (st : Log.State) (file : List Char)
    (num_bytes backwards_offset : Nat) (cs : Log.SessionInfo) (sp : Nat)
    (hcs : st.current_session = some cs) (hsp : cs.start_pos = some sp) :
    ∃ p k, sp ≤ p ∧
      (Log.read_end st file num_bytes backwards_offset true).1 = (file.drop p).take k := by
  rw [Log.read_end]
  by_cases hf : file.length = 0
  · rw [if_pos hf]
    exact ⟨sp, 0, le_refl sp, by rw [List.take_zero]⟩
  · rw [if_neg hf, hcs]
    dsimp only
    simp only [reduceIte]
    rw [hsp]
    dsimp only
    set A : Int := max (max 0 ((file.length : Int) -
      min (num_bytes : Int) (st.max_read_size : Int) - (backwards_offset : Int)))
      (sp : Int) with hA
    set B : Int := min (min (num_bytes : Int) (st.max_read_size : Int))
      ((file.length : Int) - A) with hB
    have hp : sp ≤ A.toNat := by
      have h := Int.toNat_le_toNat (le_max_right (max 0 ((file.length : Int) -
        min (num_bytes : Int) (st.max_read_size : Int) - (backwards_offset : Int)))
        (sp : Int))
      rw [← hA] at h
      simpa using h
    by_cases hn : B < 0
    · exact ⟨A.toNat, (file.drop A.toNat).length, hp,
        by rw [pyRead, if_pos hn, List.take_length]⟩
    · exact ⟨A.toNat, B.toNat, hp, by rw [pyRead, if_neg hn]⟩

/-- Witness for C8: the session clamp at a 1000-character file with the
open session starting at offset 500 and `read_end 1000 0 true`. -/
theorem read_end_respects_open_session_witness :
    ∃ p k, 500 ≤ p ∧
      (Log.read_end
        { Log.State.init with current_session := some ⟨some 500, none, [], some 0, none⟩ }
        (List.replicate 1000 'x') 1000 0 true).1 =
        ((List.replicate 1000 'x').drop p).take k :=
  read_end_respects_open_session
    { Log.State.init with current_session := some ⟨some 500, none, [], some 0, none⟩ }
    (List.replicate 1000 'x') 1000 0 ⟨some 500, none, [], some 0, none⟩ 500 rfl rfl

/-- C9: two unforced `is_running` calls both within the 0.5 s staleness
window of the last refresh return the cached result and do not spawn the
process-host probe (third component `false`), even when the probe would
answer differently (`h1`, `h2` arbitrary); a forced call always queries
(third component `true`) and refreshes the cache with the probe result and
the current time. -/
theorem is_running_cache_and_force (st : ServiceLiveness) (t1 t2 : ℚ) (h1 h2 : Bool)
    (hw : st.stale_timeout = 1/2)
    (ht1 : t1 - st.last_check ≤ 1/2)
    (ht2 : t2 - st.last_check ≤ 1/2) :
    Service.is_running st t1 h1 false = (st.last_result, st, false) ∧
    Service.is_running (Service.is_running st t1 h1 false).2.1 t2 h2 false =
      (st.last_result, st, false) ∧
    (∀ t h, Service.is_running st t h true =
      (h, { st with last_result := h, last_check := t }, true)) := by
  have hcall : ∀ (t : ℚ) (h : Bool), t - st.last_check ≤ 1/2 →
      Service.is_running st t h false = (st.last_result, st, false) := by
    intro t h htle
    rw [Service.is_running, if_neg ?_]
    rintro (hfalse | hlt)
    · exact Bool.false_ne_true hfalse
    · rw [hw] at hlt
      exact absurd hlt (not_lt.mpr htle)
  refine ⟨hcall t1 h1 ht1, ?_, fun t h => ?_⟩
  · rw [hcall t1 h1 ht1]
    exact hcall t2 h2 ht2
  · rw [Service.is_running, if_pos (Or.inl rfl)]

/-- Witness for C9: the cache behaviour at a cache refreshed at time 0
with result `true`, probed unforcedly at times 1/4 and 1/2 while the host
state changed to `false`. -/
theorem is_running_cache_and_force_witness :
    Service.is_running ⟨1/2, 0, true⟩ (1/4) true false =
      ((⟨1/2, 0, true⟩ : ServiceLiveness).last_result, ⟨1/2, 0, true⟩, false) ∧
    Service.is_running (Service.is_running ⟨1/2, 0, true⟩ (1/4) true false).2.1
        (1/2) false false =
      ((⟨1/2, 0, true⟩ : ServiceLiveness).last_result, ⟨1/2, 0, true⟩, false) ∧
    (∀ t h, Service.is_running ⟨1/2, 0, true⟩ t h true =
      (h, { (⟨1/2, 0, true⟩ : ServiceLiveness) with last_result := h, last_check := t },
        true)) :=
  is_running_cache_and_force ⟨1/2, 0, true⟩ (1/4) (1/2) true false rfl
    (by norm_num) (by norm_num)
